import Mathlib

/-!
Shallow embedding of the openturbine `rigid_pendulum_poc` core: the dense
linear-algebra kernels, the heavy-top residual/iteration-matrix assembly
(`heavy_top.cpp`), the state and mass-matrix constructors (`state.cpp`), the
generalized-alpha time integrator (`generalized_alpha_time_integrator.cpp`)
and the quaternion/rotation-vector algebra (`quaternion.cpp`).

Real-valued C++ arithmetic is embedded as exact arithmetic: the integrator and
heavy-top layers over `ℚ` (every operation they perform is rational), the
quaternion layer over `ℝ` (it uses `sin`, `cos`, `sqrt`, `atan2`).
`Kokkos::View` one/two-dimensional arrays are embedded as total functions
`Fin k → ℚ` (a view created with a label is zero-initialized, so a freshly
allocated view is the constant-zero function).
-/

namespace OpenTurbine

/-- Modelled from the spec: `create_identity_matrix` lives in `utilities.cpp`,
which is absent from the sources; spec 4.1 specifies `identity_matrix(n)` as the
n-by-n identity. -/
def create_identity_matrix (k : ℕ) : Fin k → Fin k → ℚ :=
  fun i j => if i = j then 1 else 0

/-- Modelled from the spec: `create_identity_vector` lives in `utilities.cpp`,
which is absent from the sources. It is the placeholder residual used by the
identity builders; the hand-computed scenario of spec 8 (final velocity -2
after one unit step from the all-zero scalar state) forces its single entry to
be 1, i.e. the all-ones vector. -/
def create_identity_vector (k : ℕ) : Fin k → ℚ :=
  fun _ => 1

/-- Modelled from the spec: `multiply_matrix_with_matrix` lives in
`utilities.cpp`, absent from the sources; spec 4.1 specifies the standard
matrix product. -/
def multiply_matrix_with_matrix {p q r : ℕ}
    (A : Fin p → Fin q → ℚ) (B : Fin q → Fin r → ℚ) : Fin p → Fin r → ℚ :=
  fun i k => ∑ j, A i j * B j k

/-- Modelled from the spec: `multiply_matrix_with_vector` lives in
`utilities.cpp`, absent from the sources; spec 4.1 specifies the standard
matrix-vector product. -/
def multiply_matrix_with_vector {p q : ℕ}
    (A : Fin p → Fin q → ℚ) (x : Fin q → ℚ) : Fin p → ℚ :=
  fun i => ∑ j, A i j * x j

/-- Modelled from the spec: `transpose_matrix` lives in `utilities.cpp`,
absent from the sources; spec 4.1 specifies the transpose. -/
def transpose_matrix {p q : ℕ} (A : Fin p → Fin q → ℚ) : Fin q → Fin p → ℚ :=
  fun i j => A j i

/-- Modelled from the spec: `create_cross_product_matrix` lives in
`utilities.cpp`, absent from the sources; spec 4.1 specifies the skew-symmetric
matrix `[[0,-v3,v2],[v3,0,-v1],[-v2,v1,0]]` of a 3-vector. -/
def create_cross_product_matrix (v : Fin 3 → ℚ) : Fin 3 → Fin 3 → ℚ :=
  ![![0, -(v 2), v 1], ![v 2, 0, -(v 0)], ![-(v 1), v 0, 0]]

/-- Embedding of `heavy_top_constraint_gradient_matrix` (heavy_top.cpp lines
44-69): `[B] = [ -I_3x3  -R*X~ ]`, assembled columnwise with the first three
columns from the negated identity and the last three from `-(R*X~)`. -/
def heavy_top_constraint_gradient_matrix
    (position_vector : Fin 3 → ℚ) (rotation_matrix : Fin 3 → Fin 3 → ℚ) :
    Fin 3 → Fin 6 → ℚ :=
  let I3 := create_identity_matrix 3
  let X := create_cross_product_matrix position_vector
  let RX := multiply_matrix_with_matrix rotation_matrix X
  fun i j =>
    if hj : (j : ℕ) < 3 then -(I3 i ⟨j, hj⟩)
    else -(RX i ⟨(j : ℕ) - 3, by have := j.isLt; omega⟩)

/-- Embedding of `heavy_top_tangent_damping_matrix` (heavy_top.cpp lines
136-181): only the lower-right 3x3 block is nonzero and holds
`OMEGA~ * J - (J*OMEGA)~`. The source writes the three zero blocks with three
separate branches (`i<3,j<3`, `i<3,j>=3`, `i>=3,j<3`); they collapse to the
nested conditionals below. -/
def heavy_top_tangent_damping_matrix
    (angular_velocity_vector : Fin 3 → ℚ) (inertia_matrix : Fin 3 → Fin 3 → ℚ) :
    Fin 6 → Fin 6 → ℚ :=
  let angular_velocity_matrix := create_cross_product_matrix angular_velocity_vector
  let nonzero_block_first_part :=
    multiply_matrix_with_matrix angular_velocity_matrix inertia_matrix
  let J_Omega := multiply_matrix_with_vector inertia_matrix angular_velocity_vector
  let nonzero_block_second_part := create_cross_product_matrix J_Omega
  let nonzero_block : Fin 3 → Fin 3 → ℚ :=
    fun i j => nonzero_block_first_part i j - nonzero_block_second_part i j
  fun i j =>
    if hi : (i : ℕ) < 3 then 0
    else if hj : (j : ℕ) < 3 then 0
    else nonzero_block ⟨(i : ℕ) - 3, by have := i.isLt; omega⟩
      ⟨(j : ℕ) - 3, by have := j.isLt; omega⟩

/-- Embedding of `heavy_top_tangent_stiffness_matrix` (heavy_top.cpp lines
183-217): only the lower-right 3x3 block is nonzero and holds
`X~ * (R^T * Lambda)~`. -/
def heavy_top_tangent_stiffness_matrix
    (position_vector : Fin 3 → ℚ) (rotation_matrix : Fin 3 → Fin 3 → ℚ)
    (lagrange_multipliers : Fin 3 → ℚ) : Fin 6 → Fin 6 → ℚ :=
  let X := create_cross_product_matrix position_vector
  let RT_Lambda :=
    multiply_matrix_with_vector (transpose_matrix rotation_matrix) lagrange_multipliers
  let RT_Lambda_matrix := create_cross_product_matrix RT_Lambda
  let non_zero_block := multiply_matrix_with_matrix X RT_Lambda_matrix
  fun i j =>
    if hi : (i : ℕ) < 3 then 0
    else if hj : (j : ℕ) < 3 then 0
    else non_zero_block ⟨(i : ℕ) - 3, by have := i.isLt; omega⟩
      ⟨(j : ℕ) - 3, by have := j.isLt; omega⟩

/-- Embedding of `heavy_top_iteration_matrix` (heavy_top.cpp lines 71-134):
the 9x9 saddle-point matrix assembled from `element1 = M*beta' + C_t*gamma' +
K_t`, `element2 = B^T`, `element3 = B` and `element4`, a freshly allocated
(hence zero-initialized) 3x3 view. `size_dofs = 6` is the extent of the mass
matrix. -/
def heavy_top_iteration_matrix
    (BETA_PRIME GAMMA_PRIME : ℚ)
    (mass_matrix : Fin 6 → Fin 6 → ℚ) (inertia_matrix : Fin 3 → Fin 3 → ℚ)
    (rotation_matrix : Fin 3 → Fin 3 → ℚ) (angular_velocity_vector : Fin 3 → ℚ)
    (position_vector : Fin 3 → ℚ) (lagrange_multipliers : Fin 3 → ℚ) :
    Fin 9 → Fin 9 → ℚ :=
  let tangent_damping_matrix :=
    heavy_top_tangent_damping_matrix angular_velocity_vector inertia_matrix
  let tangent_stiffness_matrix :=
    heavy_top_tangent_stiffness_matrix position_vector rotation_matrix
      lagrange_multipliers
  let constraint_gradient_matrix :=
    heavy_top_constraint_gradient_matrix position_vector rotation_matrix
  let element1 : Fin 6 → Fin 6 → ℚ := fun i j =>
    mass_matrix i j * BETA_PRIME + tangent_damping_matrix i j * GAMMA_PRIME +
      tangent_stiffness_matrix i j
  let element2 := transpose_matrix constraint_gradient_matrix
  let element3 := constraint_gradient_matrix
  let element4 : Fin 3 → Fin 3 → ℚ := fun _ _ => 0
  fun i j =>
    if hi : (i : ℕ) < 6 then
      if hj : (j : ℕ) < 6 then element1 ⟨i, hi⟩ ⟨j, hj⟩
      else element2 ⟨i, hi⟩ ⟨(j : ℕ) - 6, by have := j.isLt; omega⟩
    else
      if hj : (j : ℕ) < 6 then
        element3 ⟨(i : ℕ) - 6, by have := i.isLt; omega⟩ ⟨j, hj⟩
      else element4 ⟨(i : ℕ) - 6, by have := i.isLt; omega⟩
        ⟨(j : ℕ) - 6, by have := j.isLt; omega⟩

/-- Statement-side description of the heavy-top iteration matrix, written from
the claimed block structure: upper-left 6x6 block `M*beta' + C_t*gamma' + K_t`
where `C_t` is zero except its lower-right 3x3 block `OMEGA~ * J - (J*OMEGA)~`
and `K_t` is zero except its lower-right 3x3 block `X~ * (R^T*Lambda)~`,
upper-right block `B^T`, lower-left block `B = [ -I3 | -R*X~ ]`, lower-right
3x3 block all zeros. To be compared with `heavy_top_iteration_matrix`. -/
def heavy_top_iteration_matrix_claimed
    (BETA_PRIME GAMMA_PRIME : ℚ)
    (mass_matrix : Fin 6 → Fin 6 → ℚ) (inertia_matrix : Fin 3 → Fin 3 → ℚ)
    (rotation_matrix : Fin 3 → Fin 3 → ℚ) (angular_velocity_vector : Fin 3 → ℚ)
    (position_vector : Fin 3 → ℚ) (lagrange_multipliers : Fin 3 → ℚ) :
    Fin 9 → Fin 9 → ℚ :=
  let B : Fin 3 → Fin 6 → ℚ := fun i j =>
    if hj : (j : ℕ) < 3 then (if (i : ℕ) = (j : ℕ) then -1 else 0)
    else -(multiply_matrix_with_matrix rotation_matrix
        (create_cross_product_matrix position_vector) i
        ⟨(j : ℕ) - 3, by have := j.isLt; omega⟩)
  let Ct : Fin 6 → Fin 6 → ℚ := fun i j =>
    if h2 : 3 ≤ (i : ℕ) ∧ 3 ≤ (j : ℕ) then
      (multiply_matrix_with_matrix
          (create_cross_product_matrix angular_velocity_vector) inertia_matrix)
          ⟨(i : ℕ) - 3, by have := i.isLt; omega⟩
          ⟨(j : ℕ) - 3, by have := j.isLt; omega⟩ -
        create_cross_product_matrix
          (multiply_matrix_with_vector inertia_matrix angular_velocity_vector)
          ⟨(i : ℕ) - 3, by have := i.isLt; omega⟩
          ⟨(j : ℕ) - 3, by have := j.isLt; omega⟩
    else 0
  let Kt : Fin 6 → Fin 6 → ℚ := fun i j =>
    if h2 : 3 ≤ (i : ℕ) ∧ 3 ≤ (j : ℕ) then
      multiply_matrix_with_matrix (create_cross_product_matrix position_vector)
        (create_cross_product_matrix
          (multiply_matrix_with_vector (transpose_matrix rotation_matrix)
            lagrange_multipliers))
        ⟨(i : ℕ) - 3, by have := i.isLt; omega⟩
        ⟨(j : ℕ) - 3, by have := j.isLt; omega⟩
    else 0
  fun i j =>
    if hi : (i : ℕ) < 6 then
      if hj : (j : ℕ) < 6 then
        mass_matrix ⟨i, hi⟩ ⟨j, hj⟩ * BETA_PRIME +
          Ct ⟨i, hi⟩ ⟨j, hj⟩ * GAMMA_PRIME + Kt ⟨i, hi⟩ ⟨j, hj⟩
      else B ⟨(j : ℕ) - 6, by have := j.isLt; omega⟩ ⟨i, hi⟩
    else
      if hj : (j : ℕ) < 6 then
        B ⟨(i : ℕ) - 6, by have := i.isLt; omega⟩ ⟨j, hj⟩
      else 0

/-- Error raised by the constructors of the core: every construction-time check
in the sources throws `std::invalid_argument`. -/
inductive KernelError where
  | invalidArgument : KernelError
deriving DecidableEq

/-- Embedding of `State` (state.cpp lines 12-21): four dense vectors, deep
copied at construction, so a `State` owns its values. `q` is the generalized
coordinates (size `nq`), `v` the velocity, `a` the acceleration and `aa` the
algorithmic acceleration (size `n`). -/
structure State (nq n : ℕ) where
  q : Fin nq → ℚ
  v : Fin n → ℚ
  a : Fin n → ℚ
  aa : Fin n → ℚ
deriving DecidableEq

/-- Result of the `MassMatrix` full-matrix constructor: the stored 6x6 matrix,
the mass and the three principal moments of inertia. -/
structure MassMatrixData where
  mass : ℚ
  moment_x : ℚ
  moment_y : ℚ
  moment_z : ℚ
  matrix : Fin 6 → Fin 6 → ℚ
deriving DecidableEq

/-- Embedding of `MassMatrix::MassMatrix(HostView2D)` (state.cpp lines 46-55):
the input is a dense matrix with extents `rows` x `cols`; construction fails
with `std::invalid_argument` unless both extents are 6, then deep copies the
matrix and reads `mass` from entry (0,0) and the principal moments of inertia
from the diagonal entries (3,3), (4,4), (5,5), with no further checks. The
entries function is total over `ℕ` indices; only the 6x6 window is stored. -/
def MassMatrix_from_matrix (rows cols : ℕ) (mass_matrix : ℕ → ℕ → ℚ) :
    Except KernelError MassMatrixData :=
  if rows ≠ 6 ∨ cols ≠ 6 then .error .invalidArgument
  else
    .ok ⟨mass_matrix 0 0, mass_matrix 3 3, mass_matrix 4 4, mass_matrix 5 5,
      fun i j => mass_matrix i j⟩

/-- Embedding of the `GeneralizedAlphaTimeIntegrator` constructor
(generalized_alpha_time_integrator.cpp lines 27-54): the four range checks,
performed in order, each throwing `std::invalid_argument` when the parameter
lies strictly outside its closed range. On success the four constants are
retained. -/
def GeneralizedAlphaTimeIntegrator_construct (alpha_f alpha_m beta gamma : ℚ) :
    Except KernelError (ℚ × ℚ × ℚ × ℚ) :=
  if alpha_f < 0 ∨ alpha_f > 1 then .error .invalidArgument
  else if alpha_m < 0 ∨ alpha_m > 1 then .error .invalidArgument
  else if beta < 0 ∨ beta > 1/2 then .error .invalidArgument
  else if gamma < 0 ∨ gamma > 1 then .error .invalidArgument
  else .ok (alpha_f, alpha_m, beta, gamma)

/-- Success test for `Except`, mirroring whether a constructor throws. -/
def exceptOk {ε α : Type} : Except ε α → Bool
  | .ok _ => true
  | .error _ => false

/-- Embedding of `kCONVERGENCETOLERANCE = 1e-4`, written as the rational
1/10000. -/
def kCONVERGENCETOLERANCE : ℚ := 1/10000

/-- Embedding of `GeneralizedAlphaTimeIntegrator::CheckConvergence`
(generalized_alpha_time_integrator.cpp lines 300-318): the L2 norm of the
residual must be below `kCONVERGENCETOLERANCE`. The source compares
`sqrt(sum of squares) < tol`; over `ℚ` this is embedded as the equivalent
comparison `sum of squares < tol^2` (both sides of the original comparison are
nonnegative). -/
def CheckConvergence {k : ℕ} (residual : Fin k → ℚ) : Bool :=
  decide ((∑ i, residual i * residual i) < kCONVERGENCETOLERANCE ^ 2)

/-- Mutable state of the Newton-Raphson loop of `AlphaStep`: the velocity-space
increment `delta_gen_coords`, the velocity, acceleration and next Lagrange
multipliers being corrected, the last computed `gen_coords_next` (a freshly
allocated, hence zero, view before the first iteration) and the convergence
flag. -/
structure NewtonState (n m nq : ℕ) where
  dq : Fin n → ℚ
  v : Fin n → ℚ
  a : Fin n → ℚ
  lam : Fin m → ℚ
  qnext : Fin nq → ℚ
  conv : Bool

section GeneralizedAlpha

variable (n m nq : ℕ)
variable (kALPHA_F kALPHA_M kBETA kGAMMA h : ℚ)
variable (precondition : Bool)
variable (upd : (Fin nq → ℚ) → (Fin n → ℚ) → (Fin nq → ℚ))
variable (residual :
  (Fin nq → ℚ) → (Fin n → ℚ) → (Fin n → ℚ) → (Fin m → ℚ) → (Fin (n + m) → ℚ))
variable (it_matrix :
  ℚ → ℚ → (Fin nq → ℚ) → (Fin n → ℚ) → (Fin m → ℚ) → ℚ → (Fin n → ℚ) →
    (Fin (n + m) → Fin (n + m) → ℚ))
variable (solve :
  (Fin (n + m) → Fin (n + m) → ℚ) → (Fin (n + m) → ℚ) → (Fin (n + m) → ℚ))

/-- Embedding of the predictor line `algo_acceleration_next(i) = (kALPHA_F_ *
acceleration(i) - kALPHA_M_ * algo_acceleration(i)) / (1 - kALPHA_M_)`
(generalized_alpha_time_integrator.cpp lines 101-102). -/
def algorithmic_acceleration_next (a aa : Fin n → ℚ) : Fin n → ℚ :=
  fun i => (kALPHA_F * a i - kALPHA_M * aa i) / (1 - kALPHA_M)

/-- Embedding of the predictor line `delta_gen_coords(i) = velocity(i) + h *
(0.5 - kBETA_) * algo_acceleration(i) + h * kBETA_ *
algo_acceleration_next(i)` (lines 104-105); `algo_acceleration(i)` still holds
the old value at this point. -/
def predicted_delta_gen_coords (v a aa : Fin n → ℚ) : Fin n → ℚ :=
  fun i => v i + h * (1/2 - kBETA) * aa i +
    h * kBETA * algorithmic_acceleration_next n kALPHA_F kALPHA_M a aa i

/-- Embedding of the predictor line `velocity(i) += h * (1 - kGAMMA_) *
algo_acceleration(i) + h * kGAMMA_ * algo_acceleration_next(i)` (lines
106-107); `algo_acceleration(i)` still holds the old value. -/
def predicted_velocity (v a aa : Fin n → ℚ) : Fin n → ℚ :=
  fun i => v i + h * (1 - kGAMMA) * aa i +
    h * kGAMMA * algorithmic_acceleration_next n kALPHA_F kALPHA_M a aa i

/-- Embedding of `BETA_PRIME = (1 - kALPHA_M_) / (h * h * kBETA_ * (1 -
kALPHA_F_))` (line 125). -/
def BETA_PRIME : ℚ := (1 - kALPHA_M) / (h * h * kBETA * (1 - kALPHA_F))

/-- Embedding of `GAMMA_PRIME = kGAMMA_ / (h * kBETA_)` (line 126). -/
def GAMMA_PRIME : ℚ := kGAMMA / (h * kBETA)

/-- State of the `dl`/`dr` scaling matrices after `deep_copy(.., 0.)` and the
first preconditioning loop (lines 129-141), which writes 1 on the whole
diagonal of both. -/
def precondition_first_pass : Fin (n + m) → Fin (n + m) → ℚ :=
  fun i j => if i = j then 1 else 0

/-- Embedding of `dl` after the second preconditioning loop (lines 143-152):
for a diagonal index `i < size` the loop overwrites `dl(i,i) = kBETA_ * h * h`;
other entries keep their first-pass values. -/
def precondition_dl : Fin (n + m) → Fin (n + m) → ℚ :=
  fun i j =>
    if i = j ∧ (i : ℕ) < n then kBETA * h * h else precondition_first_pass n m i j

/-- Embedding of `dr` after the second preconditioning loop (lines 143-152):
for a diagonal index `i >= size` the loop overwrites `dr(i,i) = 1 / (kBETA_ *
h * h)`; other entries keep their first-pass values. -/
def precondition_dr : Fin (n + m) → Fin (n + m) → ℚ :=
  fun i j =>
    if i = j ∧ n ≤ (i : ℕ) then 1 / (kBETA * h * h)
    else precondition_first_pass n m i j

/-- Embedding of the preconditioned iteration matrix (lines 177-178): first
`iteration_matrix * dr`, then `dl * (iteration_matrix * dr)`. -/
def precondition_iteration_matrix (J : Fin (n + m) → Fin (n + m) → ℚ) :
    Fin (n + m) → Fin (n + m) → ℚ :=
  multiply_matrix_with_matrix (precondition_dl n m kBETA h)
    (multiply_matrix_with_matrix J (precondition_dr n m kBETA h))

/-- Embedding of the preconditioned residual scaling (lines 180-182): a
parallel loop over the fixed literal range 6 multiplies `residuals(i)` by
`kBETA_ * h * h`; entries at index 6 and beyond are untouched. -/
def precondition_residual_scaling (r : Fin (n + m) → ℚ) : Fin (n + m) → ℚ :=
  fun i => if (i : ℕ) < 6 then r i * kBETA * h * h else r i

/-- Embedding of the preconditioned Lagrange-multiplier increment (lines
199-208): `delta_lagrange_mults(i) = -soln_increments(i +
delta_gen_coords.size()) / (kBETA_ * h * h)`. -/
def precondition_lambda_increment (soln : Fin (n + m) → ℚ) : Fin m → ℚ :=
  fun i => -(soln (Fin.natAdd n i)) / (kBETA * h * h)

/-- Initial Newton-loop state of `AlphaStep` (lines 87-116): `delta_gen_coords`
and the velocity from the predictor, the acceleration zeroed, the next
Lagrange multipliers zeroed, `gen_coords_next` freshly allocated (zero), not
converged. -/
def AlphaStepInit (st : State nq n) : NewtonState n m nq :=
  ⟨predicted_delta_gen_coords n kALPHA_F kALPHA_M kBETA h st.v st.a st.aa,
    predicted_velocity n kALPHA_F kALPHA_M kGAMMA h st.v st.a st.aa,
    fun _ => 0, fun _ => 0, fun _ => 0, false⟩

/-- The `soln_increments` vector of one Newton iteration (lines 159-187): the
residual at the freshly updated coordinates, optionally preconditioned
together with the iteration matrix, handed to the linear solver. -/
def AlphaStepSoln (q0 : Fin nq → ℚ) (s : NewtonState n m nq) : Fin (n + m) → ℚ :=
  let gen_coords_next := upd q0 s.dq
  let residuals := residual gen_coords_next s.v s.a s.lam
  let iteration_matrix :=
    it_matrix (BETA_PRIME kALPHA_F kALPHA_M kBETA h) (GAMMA_PRIME kBETA kGAMMA h)
      gen_coords_next s.v s.lam h s.dq
  let J := if precondition then
      precondition_iteration_matrix n m kBETA h iteration_matrix
    else iteration_matrix
  let r := if precondition then
      precondition_residual_scaling n m kBETA h residuals
    else residuals
  solve J r

/-- The `delta_x` vector of one Newton iteration (lines 189-194): the negated
first `n` solution increments. -/
def AlphaStepIncrement (q0 : Fin nq → ℚ) (s : NewtonState n m nq) : Fin n → ℚ :=
  fun i => -(AlphaStepSoln n m nq kALPHA_F kALPHA_M kBETA kGAMMA h precondition
    upd residual it_matrix solve q0 s (Fin.castAdd m i))

/-- One iteration of the Newton-Raphson loop of `AlphaStep` (lines 156-230).
When the loop has already converged it broke out and performs nothing further
(the `conv` flag makes the remaining iterations of the embedded loop the
identity). Otherwise: recompute `gen_coords_next`, check convergence on the
fresh residual and stop there when converged; else solve the (optionally
preconditioned) linear system and apply the increments to
`delta_gen_coords`, the velocity, the acceleration and the Lagrange
multipliers. -/
def AlphaStepIteration (q0 : Fin nq → ℚ) (s : NewtonState n m nq) :
    NewtonState n m nq :=
  if s.conv then s
  else
    let gen_coords_next := upd q0 s.dq
    let residuals := residual gen_coords_next s.v s.a s.lam
    if CheckConvergence residuals then ⟨s.dq, s.v, s.a, s.lam, gen_coords_next, true⟩
    else
      let soln := AlphaStepSoln n m nq kALPHA_F kALPHA_M kBETA kGAMMA h
        precondition upd residual it_matrix solve q0 s
      let delta_x := AlphaStepIncrement n m nq kALPHA_F kALPHA_M kBETA kGAMMA h
        precondition upd residual it_matrix solve q0 s
      let lam' : Fin m → ℚ := fun i =>
        s.lam i + (if precondition then
          precondition_lambda_increment n m kBETA h soln i
        else -(soln (Fin.natAdd n i)))
      ⟨fun i => s.dq i + delta_x i / h,
        fun i => s.v i + GAMMA_PRIME kBETA kGAMMA h * delta_x i,
        fun i => s.a i + BETA_PRIME kALPHA_F kALPHA_M kBETA h * delta_x i,
        lam', gen_coords_next, false⟩

/-- The Newton-Raphson loop of `AlphaStep` after `k` iterations, starting from
the predictor state. -/
def AlphaStepLoop (st : State nq n) (k : ℕ) : NewtonState n m nq :=
  (AlphaStepIteration n m nq kALPHA_F kALPHA_M kBETA kGAMMA h precondition upd
    residual it_matrix solve st.q)^[k]
    (AlphaStepInit n m nq kALPHA_F kALPHA_M kBETA kGAMMA h st)

/-- Embedding of `GeneralizedAlphaTimeIntegrator::AlphaStep`
(generalized_alpha_time_integrator.cpp lines 76-259): predictor, at most
`max_iterations` Newton-Raphson iterations, then the closing update
`algo_acceleration_next(i) += (1 - kALPHA_F_) / (1 - kALPHA_M_) *
acceleration(i)`; returns the new `State` built from the last
`gen_coords_next`, the corrected velocity and acceleration and the closed
algorithmic acceleration, together with the Lagrange multipliers. -/
def AlphaStep (max_iterations : ℕ) (st : State nq n) :
    State nq n × (Fin m → ℚ) :=
  let final := AlphaStepLoop n m nq kALPHA_F kALPHA_M kBETA kGAMMA h
    precondition upd residual it_matrix solve st max_iterations
  let algo_acceleration_final : Fin n → ℚ := fun i =>
    algorithmic_acceleration_next n kALPHA_F kALPHA_M st.a st.aa i +
      (1 - kALPHA_F) / (1 - kALPHA_M) * final.a i
  (⟨final.qnext, final.v, final.a, algo_acceleration_final⟩, final.lam)

/-- The state appended by the i-th pass of the `Integrate` loop: step `k`
applies `AlphaStep` to the previously appended state. -/
def IntegrateLast (max_iterations : ℕ) (st0 : State nq n) : ℕ → State nq n :=
  fun k => (fun s => (AlphaStep n m nq kALPHA_F kALPHA_M kBETA kGAMMA h
    precondition upd residual it_matrix solve max_iterations s).1)^[k] st0

/-- Embedding of `GeneralizedAlphaTimeIntegrator::Integrate`
(generalized_alpha_time_integrator.cpp lines 56-74): the history starts with
the initial state; each of the `n_steps` passes appends the `AlphaStep` of the
last appended state. -/
def Integrate (max_iterations : ℕ) (st0 : State nq n) : ℕ → List (State nq n)
  | 0 => [st0]
  | k + 1 =>
    Integrate max_iterations st0 k ++
      [IntegrateLast n m nq kALPHA_F kALPHA_M kBETA kGAMMA h precondition upd
        residual it_matrix solve max_iterations st0 (k + 1)]

end GeneralizedAlpha

/-- Embedding of `UpdateGeneralizedCoordinates`
(generalized_alpha_time_integrator.cpp lines 262-298) specialized to size-1
views, the shape used by the scalar-dof solver tests: the write-back loop runs
over `gen_coords.size()` and stores only component 0, which is
`r.GetXComponent() = gen_coords(0) + delta_gen_coords(0) * h`. -/
def update_generalized_coordinates_scalar (h : ℚ) :
    (Fin 1 → ℚ) → (Fin 1 → ℚ) → (Fin 1 → ℚ) :=
  fun gen_coords delta_gen_coords => fun _ => gen_coords 0 + delta_gen_coords 0 * h

/-- Embedding of `create_identity_residual_vector`
(generalized_alpha_time_integrator.cpp lines 10-16): ignores the state and
returns the identity vector of size `acceleration.size() +
lagrange_mults.size()`. -/
def create_identity_residual_vector (n m nq : ℕ) :
    (Fin nq → ℚ) → (Fin n → ℚ) → (Fin n → ℚ) → (Fin m → ℚ) → (Fin (n + m) → ℚ) :=
  fun _ _ _ _ => create_identity_vector (n + m)

/-- Embedding of `create_identity_iteration_matrix`
(generalized_alpha_time_integrator.cpp lines 18-25): ignores its arguments and
returns the identity matrix of size `velocity.size() +
lagrange_mults.size()`. -/
def create_identity_iteration_matrix (n m nq : ℕ) :
    ℚ → ℚ → (Fin nq → ℚ) → (Fin n → ℚ) → (Fin m → ℚ) → ℚ → (Fin n → ℚ) →
      (Fin (n + m) → Fin (n + m) → ℚ) :=
  fun _ _ _ _ _ _ _ => create_identity_matrix (n + m)

/-- Modelled from the spec: `solve_linear_system` is the LAPACK-equivalent
general LU solve (spec 4.1), absent from the sources; it replaces `b` with the
`x` such that `A * x = b`. In the scalar identity-builder scenarios the matrix
handed to it is always the identity, whose unique solution is `b` itself, so
the solver is instantiated as the function returning its right-hand side
(`identity_solve_spec` below proves this instantiation meets the contract). -/
def identity_solve (k : ℕ) : (Fin k → Fin k → ℚ) → (Fin k → ℚ) → (Fin k → ℚ) :=
  fun _ b => b

/-- The all-zero scalar initial state of the solver tests (a
default-constructed `State` holds four freshly allocated, hence zero, size-1
views). -/
def scalar_zero_state : State 1 1 :=
  ⟨fun _ => 0, fun _ => 0, fun _ => 0, fun _ => 0⟩

/-- The scalar-dof instantiation of `Integrate` used by the generalized-alpha
solver tests: parameters `alpha_f = 0`, `alpha_m = 0`, `beta = 0.5`,
`gamma = 1`, step `h = 1`, no constraints, no preconditioning, identity
residual and iteration-matrix builders, all-zero initial state. -/
def ScalarIntegrate (max_iterations n_steps : ℕ) : List (State 1 1) :=
  Integrate 1 0 1 0 0 (1/2) 1 1 false (update_generalized_coordinates_scalar 1)
    (create_identity_residual_vector 1 0 1) (create_identity_iteration_matrix 1 0 1)
    (identity_solve (1 + 0)) max_iterations scalar_zero_state n_steps

/-- The scalar-dof instantiation of the Newton loop of `AlphaStep`, with the
same parameters as `ScalarIntegrate`. -/
def ScalarAlphaStepLoop (st : State 1 1) (k : ℕ) : NewtonState 1 0 1 :=
  AlphaStepLoop 1 0 1 0 0 (1/2) 1 1 false (update_generalized_coordinates_scalar 1)
    (create_identity_residual_vector 1 0 1) (create_identity_iteration_matrix 1 0 1)
    (identity_solve (1 + 0)) st k

/-- Embedding of `kTOLERANCE = 1e-6` from the math utilities, written as the
rational 1/1000000. -/
noncomputable def kTOLERANCE : ℝ := 1/1000000

/-- Modelled from the spec: `close_to` lives in `utilities.cpp`, absent from
the sources; spec 4.2 specifies `|a - b| < epsilon` with `epsilon = 1e-6`. -/
def close_to (a b : ℝ) : Prop := |a - b| < kTOLERANCE

noncomputable instance (a b : ℝ) : Decidable (close_to a b) :=
  Real.decidableLT _ _

/-- Embedding of the 3-component `Vector` value type (vector.cpp, interface
visible through quaternion.cpp). -/
structure Vector where
  x : ℝ
  y : ℝ
  z : ℝ

/-- Embedding of the 4-component `Quaternion` value type (quaternion.cpp lines
7-9). -/
structure Quaternion where
  q0 : ℝ
  q1 : ℝ
  q2 : ℝ
  q3 : ℝ

/-- Modelled from the spec: `std::atan2`, the external two-argument
arctangent. Its mathematical definition: `arctan(y/x)` for `x > 0`, shifted by
`pi` (sign following `y`) for `x < 0`, and `pi/2`, `-pi/2` or `0` on the
`x = 0` axis according to the sign of `y`. -/
noncomputable def atan2 (y x : ℝ) : ℝ :=
  if 0 < x then Real.arctan (y / x)
  else if x = 0 then (if 0 < y then Real.pi / 2 else if y < 0 then -(Real.pi / 2) else 0)
  else if 0 ≤ y then Real.arctan (y / x) + Real.pi
  else Real.arctan (y / x) - Real.pi

/-- Embedding of `quaternion_from_rotation_vector` (quaternion.cpp lines
29-43). -/
noncomputable def quaternion_from_rotation_vector (v : Vector) : Quaternion :=
  let angle := Real.sqrt (v.x * v.x + v.y * v.y + v.z * v.z)
  if close_to angle 0 then ⟨1, 0, 0, 0⟩
  else
    let sin_angle := Real.sin (angle / 2)
    let cos_angle := Real.cos (angle / 2)
    let factor := sin_angle / angle
    ⟨cos_angle, v.x * factor, v.y * factor, v.z * factor⟩

/-- Embedding of `rotation_vector_from_quaternion` (quaternion.cpp lines
45-58). -/
noncomputable def rotation_vector_from_quaternion (q : Quaternion) : Vector :=
  let sin_angle_squared := q.q1 * q.q1 + q.q2 * q.q2 + q.q3 * q.q3
  if close_to sin_angle_squared 0 then ⟨0, 0, 0⟩
  else
    let sin_angle := Real.sqrt sin_angle_squared
    let k := 2 * atan2 sin_angle q.q0 / sin_angle
    ⟨q.q1 * k, q.q2 * k, q.q3 * k⟩

/-! Helper lemmas. -/

/-- Closed form of the assembled left scaling matrix `dl`. -/
theorem precondition_dl_eq (n m : ℕ) (kBETA h : ℚ) (i j : Fin (n + m)) :
    precondition_dl n m kBETA h i j =
      if i = j then (if (i : ℕ) < n then kBETA * h * h else 1) else 0 := by
  by_cases hij : i = j
  · by_cases hn : (i : ℕ) < n <;>
      simp [precondition_dl, precondition_first_pass, hij, hn]
  · simp [precondition_dl, precondition_first_pass, hij]

/-- Closed form of the assembled right scaling matrix `dr`. -/
theorem precondition_dr_eq (n m : ℕ) (kBETA h : ℚ) (i j : Fin (n + m)) :
    precondition_dr n m kBETA h i j =
      if i = j then (if (i : ℕ) < n then 1 else 1 / (kBETA * h * h)) else 0 := by
  by_cases hij : i = j
  · subst hij
    by_cases hn : (i : ℕ) < n
    · simp [precondition_dr, precondition_first_pass, hn,
        (by omega : ¬ n ≤ (i : ℕ))]
    · simp [precondition_dr, precondition_first_pass, hn,
        (by omega : n ≤ (i : ℕ))]
  · simp [precondition_dr, precondition_first_pass, hij]

/-- The identity-returning solver instantiation satisfies the
`solve_linear_system` contract on the systems it is handed: for the identity
matrix the returned vector solves `A * x = b`. -/
theorem identity_solve_spec (k : ℕ) (A : Fin k → Fin k → ℚ) (b : Fin k → ℚ)
    (hA : A = create_identity_matrix k) :
    multiply_matrix_with_vector A (identity_solve k A b) = b := by
  subst hA
  funext i
  unfold multiply_matrix_with_vector identity_solve create_identity_matrix
  rw [Finset.sum_eq_single i]
  · simp
  · intro u _ hu
    simp [Ne.symm hu]
  · intro hi
    exact absurd (Finset.mem_univ i) hi

/-- The all-ones residual produced by the identity residual builder at the
scalar size is not converged: its squared norm 1 is not below the squared
tolerance. -/
theorem scalar_conv_ones : CheckConvergence (create_identity_vector (1 + 0)) = false := by
  simp only [CheckConvergence, create_identity_vector, Fin.sum_univ_one,
    kCONVERGENCETOLERANCE, decide_eq_false_iff_not]
  norm_num

/-- One Newton iteration of the scalar identity model: the all-ones residual
is not converged, the identity system returns the residual, so the increment
is -1, giving `dq - 1`, `v - 2` (gamma-prime = 2), `a - 2` (beta-prime = 2),
and `gen_coords_next = q + dq` computed from the pre-update `dq`. -/
theorem scalar_loop_one (st : State 1 1) :
    ScalarAlphaStepLoop st 1 =
      ⟨fun _ => st.v 0 - 1, fun _ => st.v 0 - 2, fun _ => -2, fun _ => 0,
        fun _ => st.q 0 + st.v 0, false⟩ := by
  rw [ScalarAlphaStepLoop, AlphaStepLoop, Function.iterate_one, AlphaStepIteration]
  simp [AlphaStepInit, algorithmic_acceleration_next, predicted_delta_gen_coords,
    predicted_velocity, create_identity_residual_vector, scalar_conv_ones,
    update_generalized_coordinates_scalar, AlphaStepSoln, AlphaStepIncrement,
    identity_solve, create_identity_vector, BETA_PRIME, GAMMA_PRIME,
    NewtonState.mk.injEq]
  refine ⟨funext fun i => ?_, funext fun i => ?_, funext fun i => i.elim0,
    funext fun i => ?_⟩
  · have hi : i = 0 := Subsingleton.elim i 0
    subst hi
    ring
  · have hi : i = 0 := Subsingleton.elim i 0
    subst hi
    ring
  · simp [update_generalized_coordinates_scalar, predicted_delta_gen_coords,
      algorithmic_acceleration_next]

/-- Two Newton iterations of the scalar identity model. -/
theorem scalar_loop_two (st : State 1 1) :
    ScalarAlphaStepLoop st 2 =
      ⟨fun _ => st.v 0 - 2, fun _ => st.v 0 - 4, fun _ => -4, fun _ => 0,
        fun _ => st.q 0 + st.v 0 - 1, false⟩ := by
  have h2 : (2 : ℕ) = 1 + 1 := rfl
  rw [ScalarAlphaStepLoop, AlphaStepLoop, h2, Function.iterate_succ_apply',
    Function.iterate_one]
  have hstep := scalar_loop_one st
  rw [ScalarAlphaStepLoop, AlphaStepLoop, Function.iterate_one] at hstep
  rw [hstep, AlphaStepIteration]
  simp [create_identity_residual_vector, scalar_conv_ones,
    update_generalized_coordinates_scalar, AlphaStepSoln, AlphaStepIncrement,
    identity_solve, create_identity_vector, BETA_PRIME, GAMMA_PRIME,
    NewtonState.mk.injEq]
  refine ⟨funext fun i => by ring, funext fun i => by ring,
    funext fun i => by norm_num, funext fun i => i.elim0, funext fun i => ?_⟩
  simp [update_generalized_coordinates_scalar]
  ring

/-- One scalar `AlphaStep` with one Newton iteration, in closed form. -/
theorem scalar_step_one (st : State 1 1) :
    (AlphaStep 1 0 1 0 0 (1/2) 1 1 false (update_generalized_coordinates_scalar 1)
      (create_identity_residual_vector 1 0 1) (create_identity_iteration_matrix 1 0 1)
      (identity_solve (1 + 0)) 1 st).1 =
      ⟨fun _ => st.q 0 + st.v 0, fun _ => st.v 0 - 2, fun _ => -2, fun _ => -2⟩ := by
  have hl := scalar_loop_one st
  rw [ScalarAlphaStepLoop] at hl
  simp only [AlphaStep, hl]
  simp [State.mk.injEq, algorithmic_acceleration_next]

/-- One scalar `AlphaStep` with two Newton iterations, in closed form. -/
theorem scalar_step_two (st : State 1 1) :
    (AlphaStep 1 0 1 0 0 (1/2) 1 1 false (update_generalized_coordinates_scalar 1)
      (create_identity_residual_vector 1 0 1) (create_identity_iteration_matrix 1 0 1)
      (identity_solve (1 + 0)) 2 st).1 =
      ⟨fun _ => st.q 0 + st.v 0 - 1, fun _ => st.v 0 - 4, fun _ => -4, fun _ => -4⟩ := by
  have hl := scalar_loop_two st
  rw [ScalarAlphaStepLoop] at hl
  simp only [AlphaStep, hl]
  simp [State.mk.injEq, algorithmic_acceleration_next]

/-- The last element of the history returned by the embedded `Integrate` is
the `n_steps`-fold iterate of the step function. -/
theorem ScalarIntegrate_getLast (max_iterations k : ℕ) :
    (ScalarIntegrate max_iterations k).getLast? =
      some (IntegrateLast 1 0 1 0 0 (1/2) 1 1 false
        (update_generalized_coordinates_scalar 1) (create_identity_residual_vector 1 0 1)
        (create_identity_iteration_matrix 1 0 1) (identity_solve (1 + 0))
        max_iterations scalar_zero_state k) := by
  cases k with
  | zero => rfl
  | succ k =>
    rw [ScalarIntegrate]
    simp only [Integrate]
    exact List.getLast?_concat _

/-- Characterization of the integrator constructor: the four sequential range
checks are equivalent to one conjunction of closed-range conditions. -/
theorem GeneralizedAlphaTimeIntegrator_construct_eq (alpha_f alpha_m beta gamma : ℚ) :
    GeneralizedAlphaTimeIntegrator_construct alpha_f alpha_m beta gamma =
      if (0 ≤ alpha_f ∧ alpha_f ≤ 1) ∧ (0 ≤ alpha_m ∧ alpha_m ≤ 1) ∧
          (0 ≤ beta ∧ beta ≤ 1/2) ∧ (0 ≤ gamma ∧ gamma ≤ 1)
      then .ok (alpha_f, alpha_m, beta, gamma) else .error .invalidArgument := by
  unfold GeneralizedAlphaTimeIntegrator_construct
  by_cases h1 : alpha_f < 0 ∨ alpha_f > 1
  · have hR : ¬ ((0 ≤ alpha_f ∧ alpha_f ≤ 1) ∧ (0 ≤ alpha_m ∧ alpha_m ≤ 1) ∧
        (0 ≤ beta ∧ beta ≤ 1/2) ∧ (0 ≤ gamma ∧ gamma ≤ 1)) := by
      intro hr
      rcases h1 with h | h
      · linarith [hr.1.1]
      · linarith [hr.1.2]
    rw [if_pos h1, if_neg hR]
  · rw [if_neg h1]
    by_cases h2 : alpha_m < 0 ∨ alpha_m > 1
    · have hR : ¬ ((0 ≤ alpha_f ∧ alpha_f ≤ 1) ∧ (0 ≤ alpha_m ∧ alpha_m ≤ 1) ∧
          (0 ≤ beta ∧ beta ≤ 1/2) ∧ (0 ≤ gamma ∧ gamma ≤ 1)) := by
        intro hr
        rcases h2 with h | h
        · linarith [hr.2.1.1]
        · linarith [hr.2.1.2]
      rw [if_pos h2, if_neg hR]
    · rw [if_neg h2]
      by_cases h3 : beta < 0 ∨ beta > 1/2
      · have hR : ¬ ((0 ≤ alpha_f ∧ alpha_f ≤ 1) ∧ (0 ≤ alpha_m ∧ alpha_m ≤ 1) ∧
            (0 ≤ beta ∧ beta ≤ 1/2) ∧ (0 ≤ gamma ∧ gamma ≤ 1)) := by
          intro hr
          rcases h3 with h | h
          · linarith [hr.2.2.1.1]
          · linarith [hr.2.2.1.2]
        rw [if_pos h3, if_neg hR]
      · rw [if_neg h3]
        by_cases h4 : gamma < 0 ∨ gamma > 1
        · have hR : ¬ ((0 ≤ alpha_f ∧ alpha_f ≤ 1) ∧ (0 ≤ alpha_m ∧ alpha_m ≤ 1) ∧
              (0 ≤ beta ∧ beta ≤ 1/2) ∧ (0 ≤ gamma ∧ gamma ≤ 1)) := by
            intro hr
            rcases h4 with h | h
            · linarith [hr.2.2.2.1]
            · linarith [hr.2.2.2.2]
          rw [if_pos h4, if_neg hR]
        · push_neg at h1 h2 h3 h4
          rw [if_neg (by push_neg; exact h4), if_pos ⟨h1, h2, h3, h4⟩]

/-! Claim theorems. -/

/-- C8: constructing a `GeneralizedAlphaTimeIntegrator` succeeds exactly when
`alpha_f`, `alpha_m` and `gamma` lie in [0,1] and `beta` lies in [0,1/2];
any parameter strictly outside its closed range makes construction fail with
the invalid-argument error, and parameters exactly at the endpoints are
accepted (the range conditions are non-strict). -/
theorem C8_constructor_ranges (alpha_f alpha_m beta gamma : ℚ) :
    (GeneralizedAlphaTimeIntegrator_construct alpha_f alpha_m beta gamma =
        .ok (alpha_f, alpha_m, beta, gamma) ↔
      (0 ≤ alpha_f ∧ alpha_f ≤ 1) ∧ (0 ≤ alpha_m ∧ alpha_m ≤ 1) ∧
        (0 ≤ beta ∧ beta ≤ 1/2) ∧ (0 ≤ gamma ∧ gamma ≤ 1)) ∧
    (GeneralizedAlphaTimeIntegrator_construct alpha_f alpha_m beta gamma =
        .error .invalidArgument ↔
      ¬ ((0 ≤ alpha_f ∧ alpha_f ≤ 1) ∧ (0 ≤ alpha_m ∧ alpha_m ≤ 1) ∧
        (0 ≤ beta ∧ beta ≤ 1/2) ∧ (0 ≤ gamma ∧ gamma ≤ 1))) := by
  by_cases hR : (0 ≤ alpha_f ∧ alpha_f ≤ 1) ∧ (0 ≤ alpha_m ∧ alpha_m ≤ 1) ∧
      (0 ≤ beta ∧ beta ≤ 1/2) ∧ (0 ≤ gamma ∧ gamma ≤ 1) <;>
    simp [GeneralizedAlphaTimeIntegrator_construct_eq, hR] <;> tauto

/-- C10: constructing a `MassMatrix` from a full matrix succeeds exactly when
the extents are 6 x 6, and on success stores the matrix, the (0,0) entry as
the mass and the (3,3), (4,4), (5,5) entries as principal moments of inertia,
with no symmetry or positive-definiteness check: the all-(-1) matrix is
accepted verbatim. -/
theorem C10_mass_matrix_from_full (rows cols : ℕ) (a : ℕ → ℕ → ℚ) :
    (MassMatrix_from_matrix rows cols a =
        .ok ⟨a 0 0, a 3 3, a 4 4, a 5 5, fun i j => a i j⟩ ↔
      rows = 6 ∧ cols = 6) ∧
    (exceptOk (MassMatrix_from_matrix rows cols a) = true ↔
      rows = 6 ∧ cols = 6) ∧
    MassMatrix_from_matrix 6 6 (fun _ _ => -1) =
      .ok ⟨-1, -1, -1, -1, fun _ _ => -1⟩ := by
  refine ⟨?_, ?_, ?_⟩
  · unfold MassMatrix_from_matrix
    split_ifs with hcond
    · simp only [reduceCtorEq, false_iff]
      intro hr
      rcases hcond with hc | hc <;> exact hc (by tauto)
    · push_neg at hcond
      simp [hcond]
  · unfold MassMatrix_from_matrix
    split_ifs with hcond
    · simp only [exceptOk, Bool.false_eq_true, false_iff]
      intro hr
      rcases hcond with hc | hc <;> exact hc (by tauto)
    · push_neg at hcond
      simp [exceptOk, hcond]
  · unfold MassMatrix_from_matrix
    norm_num

/-- C2: the residual scaling of the preconditioned Newton path is hard-coded
to the first 6 rows rather than the `n` velocity rows. Failing input: `n = 7`
velocity dofs, `m = 2` constraints, `beta = 1/4`, `h = 1`, all-ones residual.
Row 6 is a velocity row (`6 < n`), so the claim requires it scaled to
`beta * h^2 * 1 = 1/4`, but the code leaves it at 1; row 0 is scaled. -/
theorem C2_failing_input_evaluation :
    precondition_residual_scaling 7 2 (1/4) 1 (fun _ => 1) ⟨6, by norm_num⟩ = 1 ∧
    precondition_residual_scaling 7 2 (1/4) 1 (fun _ => 1) ⟨0, by norm_num⟩ = 1/4 ∧
    (6 : ℕ) < 7 ∧ ¬ ((1 : ℚ) = 1 * (1/4) * 1 * 1) := by
  refine ⟨?_, ?_, by norm_num, by norm_num⟩
  · norm_num [precondition_residual_scaling]
  · norm_num [precondition_residual_scaling]

/-- C1 as stated is false on the code: with `n = 6` velocity dofs, `m = 3`
constraints, `beta = 1/4` and `h = 1`, the assembled left scale `dl` holds
`beta * h^2 = 1/4` (not 1) on velocity row 0 and 1 (not `beta * h^2`) on
constraint row 6, and the residual scaling multiplies the velocity block (the
first 6 rows), leaving constraint row 6 of the all-ones residual at 1 instead
of the claimed `beta * h^2 * 1 = 1/4`. -/
theorem C1_counterexample :
    precondition_dl 6 3 (1/4) 1 ⟨0, by norm_num⟩ ⟨0, by norm_num⟩ = 1/4 ∧
    ¬ (precondition_dl 6 3 (1/4) 1 ⟨0, by norm_num⟩ ⟨0, by norm_num⟩ = 1) ∧
    precondition_dl 6 3 (1/4) 1 ⟨6, by norm_num⟩ ⟨6, by norm_num⟩ = 1 ∧
    ¬ (precondition_dl 6 3 (1/4) 1 ⟨6, by norm_num⟩ ⟨6, by norm_num⟩ = 1/4) ∧
    precondition_residual_scaling 6 3 (1/4) 1 (fun _ => 1) ⟨6, by norm_num⟩ = 1 ∧
    ¬ (precondition_residual_scaling 6 3 (1/4) 1 (fun _ => 1) ⟨6, by norm_num⟩
        = 1/4) := by
  refine ⟨?_, ?_, ?_, ?_, ?_, ?_⟩ <;>
    simp [precondition_dl, precondition_dr, precondition_first_pass,
      precondition_residual_scaling]

/-- C1 amended: when preconditioning is enabled the left scale `dl` is
`beta * h^2` on the `n` velocity rows and 1 on the `m` constraint rows, the
right scale `dr` is 1 on the velocity columns and `1 / (beta * h^2)` on the
constraint columns, the iteration matrix is transformed entrywise as
`dl * J * dr`, the first 6 residual entries (the velocity-block rows for the
rigid-body size `n = 6`) are multiplied by `beta * h^2` before the solve, and
the retrieved lambda-increments are divided by `beta * h^2` after the
solve. -/
theorem C1_preconditioning_amended (n m : ℕ) (kBETA h : ℚ) :
    (∀ i j : Fin (n + m), precondition_dl n m kBETA h i j =
      if i = j then (if (i : ℕ) < n then kBETA * h * h else 1) else 0) ∧
    (∀ i j : Fin (n + m), precondition_dr n m kBETA h i j =
      if i = j then (if (i : ℕ) < n then 1 else 1 / (kBETA * h * h)) else 0) ∧
    (∀ (J : Fin (n + m) → Fin (n + m) → ℚ) (i j : Fin (n + m)),
      precondition_iteration_matrix n m kBETA h J i j =
        (if (i : ℕ) < n then kBETA * h * h else 1) * J i j *
          (if (j : ℕ) < n then 1 else 1 / (kBETA * h * h))) ∧
    (∀ (r : Fin (n + m) → ℚ) (i : Fin (n + m)),
      precondition_residual_scaling n m kBETA h r i =
        if (i : ℕ) < 6 then kBETA * h * h * r i else r i) ∧
    (∀ (soln : Fin (n + m) → ℚ) (i : Fin m),
      precondition_lambda_increment n m kBETA h soln i =
        -(soln (Fin.natAdd n i)) / (kBETA * h * h)) := by
  refine ⟨precondition_dl_eq n m kBETA h, precondition_dr_eq n m kBETA h,
    ?_, ?_, fun soln i => rfl⟩
  · intro J i j
    unfold precondition_iteration_matrix multiply_matrix_with_matrix
    have hinner : ∀ t : Fin (n + m),
        (∑ u, J t u * precondition_dr n m kBETA h u j) =
          J t j * (if (j : ℕ) < n then 1 else 1 / (kBETA * h * h)) := by
      intro t
      rw [Finset.sum_eq_single j]
      · rw [precondition_dr_eq]
        simp
      · intro u _ hu
        rw [precondition_dr_eq]
        simp [hu]
      · intro hj
        exact absurd (Finset.mem_univ j) hj
    calc (∑ t, precondition_dl n m kBETA h i t *
            ∑ u, J t u * precondition_dr n m kBETA h u j)
        = precondition_dl n m kBETA h i i *
            ∑ u, J i u * precondition_dr n m kBETA h u j := by
          rw [Finset.sum_eq_single i]
          · intro t _ ht
            rw [precondition_dl_eq]
            simp [Ne.symm ht]
          · intro hi
            exact absurd (Finset.mem_univ i) hi
      _ = (if (i : ℕ) < n then kBETA * h * h else 1) * (J i j *
            (if (j : ℕ) < n then 1 else 1 / (kBETA * h * h))) := by
          rw [hinner, precondition_dl_eq]
          simp
      _ = (if (i : ℕ) < n then kBETA * h * h else 1) * J i j *
            (if (j : ℕ) < n then 1 else 1 / (kBETA * h * h)) := by ring
  · intro r i
    unfold precondition_residual_scaling
    split_ifs with hi
    · ring
    · rfl

/-- C6 as stated is false on the code for the two-step part: with parameters
`(alpha_f, alpha_m, beta, gamma) = (0, 0, 1/2, 1)`, `h = 1`, maximum 1 Newton
iteration and `N = 2` steps from the all-zero scalar state, `Integrate`
returns the final state `(-2, -4, -2, -2)`, not `(-1, -4, -4, -4)`. -/
theorem C6_counterexample :
    (ScalarIntegrate 1 2).getLast? =
      some ⟨fun _ => -2, fun _ => -4, fun _ => -2, fun _ => -2⟩ ∧
    ¬ ((ScalarIntegrate 1 2).getLast? =
      some ⟨fun _ => -1, fun _ => -4, fun _ => -4, fun _ => -4⟩) := by
  have heq : (ScalarIntegrate 1 2).getLast? =
      some ⟨fun _ => -2, fun _ => -4, fun _ => -2, fun _ => -2⟩ := by
    rw [ScalarIntegrate_getLast]
    have h2 : (2 : ℕ) = 1 + 1 := rfl
    rw [IntegrateLast, h2, Function.iterate_succ_apply', Function.iterate_one]
    simp only [scalar_step_one]
    refine congrArg some ?_
    simp [State.mk.injEq, scalar_zero_state]
    norm_num
  refine ⟨heq, fun hcontra => ?_⟩
  rw [heq, Option.some.injEq] at hcontra
  have hq := congrArg (fun s : State 1 1 => s.q 0) hcontra
  norm_num at hq

/-- C6 amended: with integrator parameters `(0, 0, 1/2, 1)`, stepper
`t0 = 0`, `h = 1`, `N = 1` step, maximum `M = 1` Newton iteration and the
all-zero scalar initial state, `Integrate` returns a final state with
`(q, v, a, aa) = (0, -2, -2, -2)`; with maximum `M = 2` Newton iterations
(still `N = 1` step) the final state is `(-1, -4, -4, -4)`. -/
theorem C6_scalar_integrate_amended :
    (ScalarIntegrate 1 1).getLast? =
      some ⟨fun _ => 0, fun _ => -2, fun _ => -2, fun _ => -2⟩ ∧
    (ScalarIntegrate 2 1).getLast? =
      some ⟨fun _ => -1, fun _ => -4, fun _ => -4, fun _ => -4⟩ ∧
    (ScalarIntegrate 1 1).length = 2 ∧ (ScalarIntegrate 2 1).length = 2 := by
  refine ⟨?_, ?_, rfl, rfl⟩
  · rw [ScalarIntegrate_getLast, IntegrateLast, Function.iterate_one]
    simp only [scalar_step_one]
    refine congrArg some ?_
    simp [State.mk.injEq, scalar_zero_state]
  · rw [ScalarIntegrate_getLast, IntegrateLast, Function.iterate_one]
    simp only [scalar_step_two]
    refine congrArg some ?_
    simp [State.mk.injEq, scalar_zero_state]

/-- C5: the predictor phase of every `AlphaStep` computes, componentwise,
`aa_next = (alpha_f * a - alpha_m * aa) / (1 - alpha_m)`, then
`dq = v + h*(1/2 - beta)*aa + h*beta*aa_next` using the old `aa`, then
`v + h*(1 - gamma)*aa + h*gamma*aa_next` using the old `aa`, enters the Newton
loop with the acceleration zeroed and the next Lagrange multipliers zeroed,
and carries `aa_next` as the algorithmic acceleration that the closing update
of the step adds `(1 - alpha_f)/(1 - alpha_m) * a` to. -/
theorem C5_predictor_formulas (n m nq : ℕ)
    (kALPHA_F kALPHA_M kBETA kGAMMA h : ℚ) (precondition : Bool)
    (upd : (Fin nq → ℚ) → (Fin n → ℚ) → (Fin nq → ℚ))
    (residual : (Fin nq → ℚ) → (Fin n → ℚ) → (Fin n → ℚ) → (Fin m → ℚ) →
      (Fin (n + m) → ℚ))
    (it_matrix : ℚ → ℚ → (Fin nq → ℚ) → (Fin n → ℚ) → (Fin m → ℚ) → ℚ →
      (Fin n → ℚ) → (Fin (n + m) → Fin (n + m) → ℚ))
    (solve : (Fin (n + m) → Fin (n + m) → ℚ) → (Fin (n + m) → ℚ) →
      (Fin (n + m) → ℚ))
    (st : State nq n) :
    (∀ i, algorithmic_acceleration_next n kALPHA_F kALPHA_M st.a st.aa i =
      (kALPHA_F * st.a i - kALPHA_M * st.aa i) / (1 - kALPHA_M)) ∧
    (∀ i, (AlphaStepInit n m nq kALPHA_F kALPHA_M kBETA kGAMMA h st).dq i =
      st.v i + h * (1/2 - kBETA) * st.aa i +
        h * kBETA * algorithmic_acceleration_next n kALPHA_F kALPHA_M st.a st.aa i) ∧
    (∀ i, (AlphaStepInit n m nq kALPHA_F kALPHA_M kBETA kGAMMA h st).v i =
      st.v i + h * (1 - kGAMMA) * st.aa i +
        h * kGAMMA * algorithmic_acceleration_next n kALPHA_F kALPHA_M st.a st.aa i) ∧
    (∀ i, (AlphaStepInit n m nq kALPHA_F kALPHA_M kBETA kGAMMA h st).a i = 0) ∧
    (∀ j, (AlphaStepInit n m nq kALPHA_F kALPHA_M kBETA kGAMMA h st).lam j = 0) ∧
    (∀ (K : ℕ) i,
      (AlphaStep n m nq kALPHA_F kALPHA_M kBETA kGAMMA h precondition upd
        residual it_matrix solve K st).1.aa i =
      algorithmic_acceleration_next n kALPHA_F kALPHA_M st.a st.aa i +
        (1 - kALPHA_F) / (1 - kALPHA_M) *
          (AlphaStepLoop n m nq kALPHA_F kALPHA_M kBETA kGAMMA h precondition upd
            residual it_matrix solve st K).a i) :=
  ⟨fun _ => rfl, fun _ => rfl, fun _ => rfl, fun _ => rfl, fun _ => rfl,
    fun _ _ => rfl⟩

/-- Convergence is sticky backwards: when one more Newton iteration reports
non-convergence, the state it started from was not converged either (a
converged state passes through the loop unchanged with its flag set). -/
theorem AlphaStepIteration_conv_false (n m nq : ℕ)
    (kALPHA_F kALPHA_M kBETA kGAMMA h : ℚ) (precondition : Bool)
    (upd : (Fin nq → ℚ) → (Fin n → ℚ) → (Fin nq → ℚ))
    (residual : (Fin nq → ℚ) → (Fin n → ℚ) → (Fin n → ℚ) → (Fin m → ℚ) →
      (Fin (n + m) → ℚ))
    (it_matrix : ℚ → ℚ → (Fin nq → ℚ) → (Fin n → ℚ) → (Fin m → ℚ) → ℚ →
      (Fin n → ℚ) → (Fin (n + m) → Fin (n + m) → ℚ))
    (solve : (Fin (n + m) → Fin (n + m) → ℚ) → (Fin (n + m) → ℚ) →
      (Fin (n + m) → ℚ))
    (q0 : Fin nq → ℚ) (s : NewtonState n m nq)
    (hnext : (AlphaStepIteration n m nq kALPHA_F kALPHA_M kBETA kGAMMA h
      precondition upd residual it_matrix solve q0 s).conv = false) :
    s.conv = false := by
  by_contra hs
  rw [Bool.not_eq_false] at hs
  simp [AlphaStepIteration, hs] at hnext

/-- C9: when the Newton loop of `AlphaStep` ends by exhausting the iteration
budget `K + 1` without converging, the generalized coordinates of the returned
state are computed from the velocity-space increment `dq` as it stood at the
start of the last iteration, while the last iteration's increments are applied
to the returned `dq`, velocity and acceleration. -/
theorem C9_exhaustion_stale_coordinates (n m nq : ℕ)
    (kALPHA_F kALPHA_M kBETA kGAMMA h : ℚ) (precondition : Bool)
    (upd : (Fin nq → ℚ) → (Fin n → ℚ) → (Fin nq → ℚ))
    (residual : (Fin nq → ℚ) → (Fin n → ℚ) → (Fin n → ℚ) → (Fin m → ℚ) →
      (Fin (n + m) → ℚ))
    (it_matrix : ℚ → ℚ → (Fin nq → ℚ) → (Fin n → ℚ) → (Fin m → ℚ) → ℚ →
      (Fin n → ℚ) → (Fin (n + m) → Fin (n + m) → ℚ))
    (solve : (Fin (n + m) → Fin (n + m) → ℚ) → (Fin (n + m) → ℚ) →
      (Fin (n + m) → ℚ))
    (st : State nq n) (K : ℕ)
    (hconv : (AlphaStepLoop n m nq kALPHA_F kALPHA_M kBETA kGAMMA h precondition
      upd residual it_matrix solve st (K + 1)).conv = false) :
    (AlphaStep n m nq kALPHA_F kALPHA_M kBETA kGAMMA h precondition upd residual
        it_matrix solve (K + 1) st).1.q =
      upd st.q ((AlphaStepLoop n m nq kALPHA_F kALPHA_M kBETA kGAMMA h
        precondition upd residual it_matrix solve st K).dq) ∧
    (AlphaStep n m nq kALPHA_F kALPHA_M kBETA kGAMMA h precondition upd residual
        it_matrix solve (K + 1) st).1.v = (fun i =>
      (AlphaStepLoop n m nq kALPHA_F kALPHA_M kBETA kGAMMA h precondition upd
        residual it_matrix solve st K).v i +
        GAMMA_PRIME kBETA kGAMMA h *
          AlphaStepIncrement n m nq kALPHA_F kALPHA_M kBETA kGAMMA h precondition
            upd residual it_matrix solve st.q
            (AlphaStepLoop n m nq kALPHA_F kALPHA_M kBETA kGAMMA h precondition
              upd residual it_matrix solve st K) i) ∧
    (AlphaStep n m nq kALPHA_F kALPHA_M kBETA kGAMMA h precondition upd residual
        it_matrix solve (K + 1) st).1.a = (fun i =>
      (AlphaStepLoop n m nq kALPHA_F kALPHA_M kBETA kGAMMA h precondition upd
        residual it_matrix solve st K).a i +
        BETA_PRIME kALPHA_F kALPHA_M kBETA h *
          AlphaStepIncrement n m nq kALPHA_F kALPHA_M kBETA kGAMMA h precondition
            upd residual it_matrix solve st.q
            (AlphaStepLoop n m nq kALPHA_F kALPHA_M kBETA kGAMMA h precondition
              upd residual it_matrix solve st K) i) ∧
    (AlphaStepLoop n m nq kALPHA_F kALPHA_M kBETA kGAMMA h precondition upd
        residual it_matrix solve st (K + 1)).dq = (fun i =>
      (AlphaStepLoop n m nq kALPHA_F kALPHA_M kBETA kGAMMA h precondition upd
        residual it_matrix solve st K).dq i +
        AlphaStepIncrement n m nq kALPHA_F kALPHA_M kBETA kGAMMA h precondition
          upd residual it_matrix solve st.q
          (AlphaStepLoop n m nq kALPHA_F kALPHA_M kBETA kGAMMA h precondition
            upd residual it_matrix solve st K) i / h) := by
  have hsucc : AlphaStepLoop n m nq kALPHA_F kALPHA_M kBETA kGAMMA h precondition
      upd residual it_matrix solve st (K + 1) =
    AlphaStepIteration n m nq kALPHA_F kALPHA_M kBETA kGAMMA h precondition upd
      residual it_matrix solve st.q
      (AlphaStepLoop n m nq kALPHA_F kALPHA_M kBETA kGAMMA h precondition upd
        residual it_matrix solve st K) := by
    rw [AlphaStepLoop, AlphaStepLoop, Function.iterate_succ_apply']
  have hK : (AlphaStepLoop n m nq kALPHA_F kALPHA_M kBETA kGAMMA h precondition
      upd residual it_matrix solve st K).conv = false := by
    apply AlphaStepIteration_conv_false n m nq kALPHA_F kALPHA_M kBETA kGAMMA h
      precondition upd residual it_matrix solve st.q
    rw [← hsucc]
    exact hconv
  have hcc : CheckConvergence (residual
      (upd st.q (AlphaStepLoop n m nq kALPHA_F kALPHA_M kBETA kGAMMA h
        precondition upd residual it_matrix solve st K).dq)
      (AlphaStepLoop n m nq kALPHA_F kALPHA_M kBETA kGAMMA h precondition upd
        residual it_matrix solve st K).v
      (AlphaStepLoop n m nq kALPHA_F kALPHA_M kBETA kGAMMA h precondition upd
        residual it_matrix solve st K).a
      (AlphaStepLoop n m nq kALPHA_F kALPHA_M kBETA kGAMMA h precondition upd
        residual it_matrix solve st K).lam) = false := by
    by_contra hcc'
    rw [Bool.not_eq_false] at hcc'
    rw [hsucc] at hconv
    simp [AlphaStepIteration, hK, hcc'] at hconv
  rw [hsucc] at hconv ⊢
  refine ⟨?_, ?_, ?_, ?_⟩ <;>
    simp only [AlphaStep, hsucc, AlphaStepIteration, hK, hcc, Bool.false_eq_true,
      if_false]

/-- Witness for C9: the scalar identity model exhausts its single Newton
iteration without converging, and the returned generalized coordinates are
computed from the predictor's `dq` (the value at the start of the last
iteration), not from the updated one. -/
theorem C9_witness :
    (AlphaStepLoop 1 0 1 0 0 (1/2) 1 1 false (update_generalized_coordinates_scalar 1)
      (create_identity_residual_vector 1 0 1) (create_identity_iteration_matrix 1 0 1)
      (identity_solve (1 + 0)) scalar_zero_state 1).conv = false ∧
    (AlphaStep 1 0 1 0 0 (1/2) 1 1 false (update_generalized_coordinates_scalar 1)
      (create_identity_residual_vector 1 0 1) (create_identity_iteration_matrix 1 0 1)
      (identity_solve (1 + 0)) 1 scalar_zero_state).1.q =
      update_generalized_coordinates_scalar 1 scalar_zero_state.q
        ((AlphaStepLoop 1 0 1 0 0 (1/2) 1 1 false
          (update_generalized_coordinates_scalar 1)
          (create_identity_residual_vector 1 0 1)
          (create_identity_iteration_matrix 1 0 1)
          (identity_solve (1 + 0)) scalar_zero_state 0).dq) := by
  have hconv : (AlphaStepLoop 1 0 1 0 0 (1/2) 1 1 false
      (update_generalized_coordinates_scalar 1) (create_identity_residual_vector 1 0 1)
      (create_identity_iteration_matrix 1 0 1) (identity_solve (1 + 0))
      scalar_zero_state 1).conv = false := by
    have hl := scalar_loop_one scalar_zero_state
    rw [ScalarAlphaStepLoop] at hl
    rw [hl]
  exact ⟨hconv, (C9_exhaustion_stale_coordinates 1 0 1 0 0 (1/2) 1 1 false
    (update_generalized_coordinates_scalar 1) (create_identity_residual_vector 1 0 1)
    (create_identity_iteration_matrix 1 0 1) (identity_solve (1 + 0))
    scalar_zero_state 0 hconv).1⟩

/-- C4: the heavy-top iteration matrix is the 9x9 block matrix with upper-left
block `M*beta' + C_t*gamma' + K_t`, upper-right block `B^T`, lower-left block
`B = [ -I3 | -R*X~ ]` and zero lower-right block, where `C_t` is zero except
its lower-right 3x3 block `OMEGA~ * J - (J*OMEGA)~` and `K_t` is zero except
its lower-right 3x3 block `X~ * (R^T*Lambda)~`. -/
theorem C4_heavy_top_iteration_matrix_blocks (BETA_PRIME GAMMA_PRIME : ℚ)
    (mass_matrix : Fin 6 → Fin 6 → ℚ) (inertia_matrix : Fin 3 → Fin 3 → ℚ)
    (rotation_matrix : Fin 3 → Fin 3 → ℚ) (angular_velocity_vector : Fin 3 → ℚ)
    (position_vector : Fin 3 → ℚ) (lagrange_multipliers : Fin 3 → ℚ) :
    ∀ i j, heavy_top_iteration_matrix BETA_PRIME GAMMA_PRIME mass_matrix
        inertia_matrix rotation_matrix angular_velocity_vector position_vector
        lagrange_multipliers i j =
      heavy_top_iteration_matrix_claimed BETA_PRIME GAMMA_PRIME mass_matrix
        inertia_matrix rotation_matrix angular_velocity_vector position_vector
        lagrange_multipliers i j := by
  intro i j
  fin_cases i <;> fin_cases j <;> rfl

/-- Length of the embedded `Integrate` history: the initial state plus one
state per step. -/
theorem Integrate_length (n m nq : ℕ)
    (kALPHA_F kALPHA_M kBETA kGAMMA h : ℚ) (precondition : Bool)
    (upd : (Fin nq → ℚ) → (Fin n → ℚ) → (Fin nq → ℚ))
    (residual : (Fin nq → ℚ) → (Fin n → ℚ) → (Fin n → ℚ) → (Fin m → ℚ) →
      (Fin (n + m) → ℚ))
    (it_matrix : ℚ → ℚ → (Fin nq → ℚ) → (Fin n → ℚ) → (Fin m → ℚ) → ℚ →
      (Fin n → ℚ) → (Fin (n + m) → Fin (n + m) → ℚ))
    (solve : (Fin (n + m) → Fin (n + m) → ℚ) → (Fin (n + m) → ℚ) →
      (Fin (n + m) → ℚ))
    (max_iterations : ℕ) (st0 : State nq n) :
    ∀ k, (Integrate n m nq kALPHA_F kALPHA_M kBETA kGAMMA h precondition upd
      residual it_matrix solve max_iterations st0 k).length = k + 1 := by
  intro k
  induction k with
  | zero => rfl
  | succ k ih => simp [Integrate, ih]

/-- Extending the embedded `Integrate` history by one step leaves every
already-recorded entry unchanged. -/
theorem Integrate_get_succ (n m nq : ℕ)
    (kALPHA_F kALPHA_M kBETA kGAMMA h : ℚ) (precondition : Bool)
    (upd : (Fin nq → ℚ) → (Fin n → ℚ) → (Fin nq → ℚ))
    (residual : (Fin nq → ℚ) → (Fin n → ℚ) → (Fin n → ℚ) → (Fin m → ℚ) →
      (Fin (n + m) → ℚ))
    (it_matrix : ℚ → ℚ → (Fin nq → ℚ) → (Fin n → ℚ) → (Fin m → ℚ) → ℚ →
      (Fin n → ℚ) → (Fin (n + m) → Fin (n + m) → ℚ))
    (solve : (Fin (n + m) → Fin (n + m) → ℚ) → (Fin (n + m) → ℚ) →
      (Fin (n + m) → ℚ))
    (max_iterations : ℕ) (st0 : State nq n) (N i : ℕ)
    (hb : i < (Integrate n m nq kALPHA_F kALPHA_M kBETA kGAMMA h precondition upd
      residual it_matrix solve max_iterations st0 N).length)
    (hb' : i < (Integrate n m nq kALPHA_F kALPHA_M kBETA kGAMMA h precondition upd
      residual it_matrix solve max_iterations st0 (N + 1)).length) :
    (Integrate n m nq kALPHA_F kALPHA_M kBETA kGAMMA h precondition upd residual
      it_matrix solve max_iterations st0 (N + 1)).get ⟨i, hb'⟩ =
    (Integrate n m nq kALPHA_F kALPHA_M kBETA kGAMMA h precondition upd residual
      it_matrix solve max_iterations st0 N).get ⟨i, hb⟩ := by
  simp only [Integrate]
  simp [List.getElem_append_left hb]

/-- C3: the history built by the embedded `Integrate` is append-only. Its
length is `N + 1`; entry 0 stays the initial state, and every entry recorded
after `N1` steps holds exactly the same values after any `N2 >= N1` steps: a
state appended to the history is never modified by a later step. With the
spec-modelled value-semantics `State` accessors, `AlphaStep` receives its
input state by value and cannot modify it. -/
theorem C3_history_append_only (n m nq : ℕ)
    (kALPHA_F kALPHA_M kBETA kGAMMA h : ℚ) (precondition : Bool)
    (upd : (Fin nq → ℚ) → (Fin n → ℚ) → (Fin nq → ℚ))
    (residual : (Fin nq → ℚ) → (Fin n → ℚ) → (Fin n → ℚ) → (Fin m → ℚ) →
      (Fin (n + m) → ℚ))
    (it_matrix : ℚ → ℚ → (Fin nq → ℚ) → (Fin n → ℚ) → (Fin m → ℚ) → ℚ →
      (Fin n → ℚ) → (Fin (n + m) → Fin (n + m) → ℚ))
    (solve : (Fin (n + m) → Fin (n + m) → ℚ) → (Fin (n + m) → ℚ) →
      (Fin (n + m) → ℚ))
    (max_iterations : ℕ) (st0 : State nq n) :
    (∀ N1 N2 i
      (hb : i < (Integrate n m nq kALPHA_F kALPHA_M kBETA kGAMMA h precondition
        upd residual it_matrix solve max_iterations st0 N1).length)
      (hb' : i < (Integrate n m nq kALPHA_F kALPHA_M kBETA kGAMMA h precondition
        upd residual it_matrix solve max_iterations st0 N2).length),
      N1 ≤ N2 →
      (Integrate n m nq kALPHA_F kALPHA_M kBETA kGAMMA h precondition upd
        residual it_matrix solve max_iterations st0 N1).get ⟨i, hb⟩ =
      (Integrate n m nq kALPHA_F kALPHA_M kBETA kGAMMA h precondition upd
        residual it_matrix solve max_iterations st0 N2).get ⟨i, hb'⟩) ∧
    (∀ N (h0 : 0 < (Integrate n m nq kALPHA_F kALPHA_M kBETA kGAMMA h
        precondition upd residual it_matrix solve max_iterations st0 N).length),
      (Integrate n m nq kALPHA_F kALPHA_M kBETA kGAMMA h precondition upd
        residual it_matrix solve max_iterations st0 N).get ⟨0, h0⟩ = st0) := by
  have hstable : ∀ N1 N2 i
      (hb : i < (Integrate n m nq kALPHA_F kALPHA_M kBETA kGAMMA h precondition
        upd residual it_matrix solve max_iterations st0 N1).length)
      (hb' : i < (Integrate n m nq kALPHA_F kALPHA_M kBETA kGAMMA h precondition
        upd residual it_matrix solve max_iterations st0 N2).length),
      N1 ≤ N2 →
      (Integrate n m nq kALPHA_F kALPHA_M kBETA kGAMMA h precondition upd
        residual it_matrix solve max_iterations st0 N1).get ⟨i, hb⟩ =
      (Integrate n m nq kALPHA_F kALPHA_M kBETA kGAMMA h precondition upd
        residual it_matrix solve max_iterations st0 N2).get ⟨i, hb'⟩ := by
    intro N1 N2 i hb hb' hle
    revert hb'
    induction N2, hle using Nat.le_induction with
    | base => intro hb'; rfl
    | succ M hNM ih =>
      intro hb'
      have hbM : i < (Integrate n m nq kALPHA_F kALPHA_M kBETA kGAMMA h
          precondition upd residual it_matrix solve max_iterations st0 M).length := by
        rw [Integrate_length] at hb ⊢
        omega
      rw [Integrate_get_succ n m nq kALPHA_F kALPHA_M kBETA kGAMMA h precondition
        upd residual it_matrix solve max_iterations st0 M i hbM hb']
      exact ih hbM
  refine ⟨hstable, ?_⟩
  intro N h0
  have h00 : 0 < (Integrate n m nq kALPHA_F kALPHA_M kBETA kGAMMA h precondition
      upd residual it_matrix solve max_iterations st0 0).length := by
    rw [Integrate_length]
    omega
  rw [← hstable 0 N 0 h00 h0 (Nat.zero_le N)]
  rfl

/-- Witness for C3: in the scalar identity model, the state recorded after the
first step keeps its value when a second step is integrated. -/
theorem C3_witness :
    (ScalarIntegrate 1 1).get ⟨1, by decide⟩ =
      (ScalarIntegrate 1 2).get ⟨1, by decide⟩ := by
  exact (C3_history_append_only 1 0 1 0 0 (1/2) 1 1 false
    (update_generalized_coordinates_scalar 1) (create_identity_residual_vector 1 0 1)
    (create_identity_iteration_matrix 1 0 1) (identity_solve (1 + 0)) 1
    scalar_zero_state).1 1 2 1 (by decide) (by decide) (by norm_num)

/-- Branch lemma: the exponential map returns the identity quaternion when the
rotation angle is within tolerance of zero. -/
theorem quaternion_from_rotation_vector_of_close (v : Vector)
    (h : close_to (Real.sqrt (v.x * v.x + v.y * v.y + v.z * v.z)) 0) :
    quaternion_from_rotation_vector v = ⟨1, 0, 0, 0⟩ := by
  rw [quaternion_from_rotation_vector]
  dsimp only
  rw [if_pos h]

/-- Branch lemma: the exponential map away from the zero-angle guard. -/
theorem quaternion_from_rotation_vector_of_not_close (v : Vector)
    (h : ¬ close_to (Real.sqrt (v.x * v.x + v.y * v.y + v.z * v.z)) 0) :
    quaternion_from_rotation_vector v =
      ⟨Real.cos (Real.sqrt (v.x * v.x + v.y * v.y + v.z * v.z) / 2),
        v.x * (Real.sin (Real.sqrt (v.x * v.x + v.y * v.y + v.z * v.z) / 2) /
          Real.sqrt (v.x * v.x + v.y * v.y + v.z * v.z)),
        v.y * (Real.sin (Real.sqrt (v.x * v.x + v.y * v.y + v.z * v.z) / 2) /
          Real.sqrt (v.x * v.x + v.y * v.y + v.z * v.z)),
        v.z * (Real.sin (Real.sqrt (v.x * v.x + v.y * v.y + v.z * v.z) / 2) /
          Real.sqrt (v.x * v.x + v.y * v.y + v.z * v.z))⟩ := by
  rw [quaternion_from_rotation_vector]
  dsimp only
  rw [if_neg h]

/-- Branch lemma: the logarithmic map returns the null vector when the squared
vector part is within tolerance of zero. -/
theorem rotation_vector_from_quaternion_of_close (q : Quaternion)
    (h : close_to (q.q1 * q.q1 + q.q2 * q.q2 + q.q3 * q.q3) 0) :
    rotation_vector_from_quaternion q = ⟨0, 0, 0⟩ := by
  rw [rotation_vector_from_quaternion]
  dsimp only
  rw [if_pos h]

/-- Branch lemma: the logarithmic map away from the null-quaternion guard. -/
theorem rotation_vector_from_quaternion_of_not_close (q : Quaternion)
    (h : ¬ close_to (q.q1 * q.q1 + q.q2 * q.q2 + q.q3 * q.q3) 0) :
    rotation_vector_from_quaternion q =
      ⟨q.q1 * (2 * atan2 (Real.sqrt (q.q1 * q.q1 + q.q2 * q.q2 + q.q3 * q.q3)) q.q0 /
          Real.sqrt (q.q1 * q.q1 + q.q2 * q.q2 + q.q3 * q.q3)),
        q.q2 * (2 * atan2 (Real.sqrt (q.q1 * q.q1 + q.q2 * q.q2 + q.q3 * q.q3)) q.q0 /
          Real.sqrt (q.q1 * q.q1 + q.q2 * q.q2 + q.q3 * q.q3)),
        q.q3 * (2 * atan2 (Real.sqrt (q.q1 * q.q1 + q.q2 * q.q2 + q.q3 * q.q3)) q.q0 /
          Real.sqrt (q.q1 * q.q1 + q.q2 * q.q2 + q.q3 * q.q3))⟩ := by
  rw [rotation_vector_from_quaternion]
  dsimp only
  rw [if_neg h]

/-- Recovery of the half angle: `atan2 (sin t) (cos t) = t` on `[0, pi/2]`. -/
theorem atan2_sin_cos (t : ℝ) (h0 : 0 ≤ t) (hle : t ≤ Real.pi / 2) :
    atan2 (Real.sin t) (Real.cos t) = t := by
  have hcosnn : 0 ≤ Real.cos t :=
    Real.cos_nonneg_of_mem_Icc ⟨by linarith [Real.pi_pos], hle⟩
  rcases lt_or_eq_of_le hcosnn with hc | hc
  · have hlt : t < Real.pi / 2 := by
      rcases lt_or_eq_of_le hle with h | h
      · exact h
      · exfalso
        rw [h, Real.cos_pi_div_two] at hc
        exact lt_irrefl 0 hc
    rw [atan2, if_pos hc, ← Real.tan_eq_sin_div_cos,
      Real.arctan_tan (by linarith [Real.pi_pos]) hlt]
  · have hsinpos : 0 < Real.sin t := by
      have ht : t = Real.pi / 2 := by
        by_contra hne
        have hlt : t < Real.pi / 2 := lt_of_le_of_ne hle hne
        have := Real.cos_pos_of_mem_Ioo ⟨by linarith [Real.pi_pos], hlt⟩
        rw [← hc] at this
        exact lt_irrefl 0 this
      rw [ht, Real.sin_pi_div_two]
      norm_num
    have ht : t = Real.pi / 2 := by
      by_contra hne
      have hlt : t < Real.pi / 2 := lt_of_le_of_ne hle hne
      have := Real.cos_pos_of_mem_Ioo ⟨by linarith [Real.pi_pos], hlt⟩
      rw [← hc] at this
      exact lt_irrefl 0 this
    rw [atan2, if_neg (by rw [← hc]; exact lt_irrefl 0), if_pos hc.symm,
      if_pos hsinpos, ht]

/-- C7 as stated is false on the code: the rotation vector `(1/1000, 0, 0)`
has norm `1/1000 <= pi`, yet the round trip returns the null vector, because
`sin^2(1/2000) < 1e-6` triggers the logarithm's null-quaternion guard; the
x-component error `1/1000` exceeds the claimed `1e-6` tolerance. -/
theorem C7_counterexample :
    Real.sqrt ((1/1000 : ℝ) * (1/1000) + 0 * 0 + 0 * 0) ≤ Real.pi ∧
    rotation_vector_from_quaternion
      (quaternion_from_rotation_vector ⟨1/1000, 0, 0⟩) = ⟨0, 0, 0⟩ ∧
    ¬ (|(rotation_vector_from_quaternion
          (quaternion_from_rotation_vector ⟨1/1000, 0, 0⟩)).x - (1/1000 : ℝ)| ≤
        kTOLERANCE) := by
  have hS : ((1/1000 : ℝ) * (1/1000) + 0 * 0 + 0 * 0) = (1/1000 : ℝ)^2 := by ring
  have hsqrt : Real.sqrt ((1/1000 : ℝ) * (1/1000) + 0 * 0 + 0 * 0) = 1/1000 := by
    rw [hS, Real.sqrt_sq (by norm_num)]
  have hpi : Real.sqrt ((1/1000 : ℝ) * (1/1000) + 0 * 0 + 0 * 0) ≤ Real.pi := by
    rw [hsqrt]
    linarith [Real.pi_gt_three]
  have hnotclose : ¬ close_to (Real.sqrt ((1/1000 : ℝ) * (1/1000) + 0 * 0 + 0 * 0)) 0 := by
    rw [close_to, hsqrt, sub_zero, abs_of_pos (by norm_num), kTOLERANCE]
    norm_num
  have hq : quaternion_from_rotation_vector ⟨1/1000, 0, 0⟩ =
      ⟨Real.cos (1/2000), Real.sin (1/2000), 0, 0⟩ := by
    rw [quaternion_from_rotation_vector]
    dsimp only
    rw [if_neg hnotclose, hsqrt]
    have h2000 : ((1:ℝ)/1000)/2 = 1/2000 := by norm_num
    rw [h2000]
    simp only [Quaternion.mk.injEq, zero_mul, true_and, and_true]
    field_simp
  have hsin_pos : 0 < Real.sin (1/2000) := by
    apply Real.sin_pos_of_pos_of_lt_pi (by norm_num)
    linarith [Real.pi_gt_three]
  have hsin_lt : Real.sin (1/2000) < 1/2000 := Real.sin_lt (by norm_num)
  have hclose2 : close_to (Real.sin (1/2000) * Real.sin (1/2000) + 0 * 0 + 0 * 0) 0 := by
    rw [close_to, sub_zero, kTOLERANCE]
    rw [abs_of_nonneg (by positivity)]
    nlinarith [hsin_pos, hsin_lt]
  have hrv : rotation_vector_from_quaternion ⟨Real.cos (1/2000), Real.sin (1/2000), 0, 0⟩ =
      ⟨0, 0, 0⟩ := by
    rw [rotation_vector_from_quaternion]
    dsimp only
    rw [if_pos hclose2]
  refine ⟨hpi, ?_, ?_⟩
  · rw [hq, hrv]
  · rw [hq, hrv]
    dsimp only
    rw [zero_sub, abs_neg, abs_of_pos (by norm_num), kTOLERANCE]
    norm_num

/-- C7 amended: for every rotation vector with norm at most pi that lies
outside the logarithm's truncation dead zone - either the norm is below the
1e-6 tolerance (both guards truncate consistently) or `sin^2(norm/2)` is at
least 1e-6 (no guard fires) - the round trip
`rotation_vector_from_quaternion (quaternion_from_rotation_vector v)` returns
`v` to within 1e-6 in each component; the null rotation vector maps to the
identity quaternion and the identity quaternion maps back to the null
rotation vector. -/
theorem C7_amended (v : Vector)
    (hpi : Real.sqrt (v.x * v.x + v.y * v.y + v.z * v.z) ≤ Real.pi)
    (hreg : Real.sqrt (v.x * v.x + v.y * v.y + v.z * v.z) < kTOLERANCE ∨
      kTOLERANCE ≤
        Real.sin (Real.sqrt (v.x * v.x + v.y * v.y + v.z * v.z) / 2) ^ 2) :
    (|(rotation_vector_from_quaternion (quaternion_from_rotation_vector v)).x -
        v.x| ≤ kTOLERANCE ∧
      |(rotation_vector_from_quaternion (quaternion_from_rotation_vector v)).y -
        v.y| ≤ kTOLERANCE ∧
      |(rotation_vector_from_quaternion (quaternion_from_rotation_vector v)).z -
        v.z| ≤ kTOLERANCE) ∧
    quaternion_from_rotation_vector ⟨0, 0, 0⟩ = ⟨1, 0, 0, 0⟩ ∧
    rotation_vector_from_quaternion ⟨1, 0, 0, 0⟩ = ⟨0, 0, 0⟩ := by
  have htol_pos : (0 : ℝ) < kTOLERANCE := by rw [kTOLERANCE]; norm_num
  have hid1 : quaternion_from_rotation_vector ⟨0, 0, 0⟩ = ⟨1, 0, 0, 0⟩ := by
    apply quaternion_from_rotation_vector_of_close
    show close_to (Real.sqrt ((0:ℝ) * 0 + 0 * 0 + 0 * 0)) 0
    rw [close_to, sub_zero, show ((0:ℝ) * 0 + 0 * 0 + 0 * 0) = 0 by ring,
      Real.sqrt_zero, abs_zero]
    exact htol_pos
  have hid2 : rotation_vector_from_quaternion ⟨1, 0, 0, 0⟩ = ⟨0, 0, 0⟩ := by
    apply rotation_vector_from_quaternion_of_close
    show close_to ((0:ℝ) * 0 + 0 * 0 + 0 * 0) 0
    rw [close_to, sub_zero, show ((0:ℝ) * 0 + 0 * 0 + 0 * 0) = 0 by ring, abs_zero]
    exact htol_pos
  refine ⟨?_, hid1, hid2⟩
  have hθ0 : 0 ≤ Real.sqrt (v.x * v.x + v.y * v.y + v.z * v.z) := Real.sqrt_nonneg _
  by_cases hclose : close_to (Real.sqrt (v.x * v.x + v.y * v.y + v.z * v.z)) 0
  · have hθlt : Real.sqrt (v.x * v.x + v.y * v.y + v.z * v.z) < kTOLERANCE := by
      have h := hclose
      rw [close_to, sub_zero, abs_of_nonneg hθ0] at h
      exact h
    rw [quaternion_from_rotation_vector_of_close v hclose, hid2]
    have hx : |v.x| ≤ Real.sqrt (v.x * v.x + v.y * v.y + v.z * v.z) := by
      rw [← Real.sqrt_mul_self_eq_abs]
      exact Real.sqrt_le_sqrt (by nlinarith [mul_self_nonneg v.y, mul_self_nonneg v.z])
    have hy : |v.y| ≤ Real.sqrt (v.x * v.x + v.y * v.y + v.z * v.z) := by
      rw [← Real.sqrt_mul_self_eq_abs]
      exact Real.sqrt_le_sqrt (by nlinarith [mul_self_nonneg v.x, mul_self_nonneg v.z])
    have hz : |v.z| ≤ Real.sqrt (v.x * v.x + v.y * v.y + v.z * v.z) := by
      rw [← Real.sqrt_mul_self_eq_abs]
      exact Real.sqrt_le_sqrt (by nlinarith [mul_self_nonneg v.x, mul_self_nonneg v.y])
    refine ⟨?_, ?_, ?_⟩ <;> dsimp only <;> rw [zero_sub, abs_neg]
    · linarith
    · linarith
    · linarith
  · have hθtol : kTOLERANCE ≤ Real.sqrt (v.x * v.x + v.y * v.y + v.z * v.z) := by
      rw [close_to, sub_zero, abs_of_nonneg hθ0] at hclose
      exact not_lt.mp hclose
    have hθpos : 0 < Real.sqrt (v.x * v.x + v.y * v.y + v.z * v.z) :=
      lt_of_lt_of_le htol_pos hθtol
    have hθne : Real.sqrt (v.x * v.x + v.y * v.y + v.z * v.z) ≠ 0 := ne_of_gt hθpos
    have hreg2 : kTOLERANCE ≤
        Real.sin (Real.sqrt (v.x * v.x + v.y * v.y + v.z * v.z) / 2) ^ 2 := by
      rcases hreg with h | h
      · exact absurd h (not_lt.mpr hθtol)
      · exact h
    have hhalfle : Real.sqrt (v.x * v.x + v.y * v.y + v.z * v.z) / 2 ≤ Real.pi / 2 := by
      linarith
    have hhalf0 : 0 ≤ Real.sqrt (v.x * v.x + v.y * v.y + v.z * v.z) / 2 := by
      positivity
    have hsin0 : 0 ≤ Real.sin (Real.sqrt (v.x * v.x + v.y * v.y + v.z * v.z) / 2) := by
      apply Real.sin_nonneg_of_nonneg_of_le_pi hhalf0
      linarith [Real.pi_pos]
    have hsinpos : 0 < Real.sin (Real.sqrt (v.x * v.x + v.y * v.y + v.z * v.z) / 2) := by
      rcases lt_or_eq_of_le hsin0 with h | h
      · exact h
      · exfalso
        rw [← h] at hreg2
        rw [kTOLERANCE] at hreg2
        norm_num at hreg2
    have hsinne : Real.sin (Real.sqrt (v.x * v.x + v.y * v.y + v.z * v.z) / 2) ≠ 0 :=
      ne_of_gt hsinpos
    have hSnn : (0:ℝ) ≤ v.x * v.x + v.y * v.y + v.z * v.z := by
      nlinarith [mul_self_nonneg v.x, mul_self_nonneg v.y, mul_self_nonneg v.z]
    rw [quaternion_from_rotation_vector_of_not_close v hclose]
    have hs2 : (v.x * (Real.sin (Real.sqrt (v.x * v.x + v.y * v.y + v.z * v.z) / 2) /
          Real.sqrt (v.x * v.x + v.y * v.y + v.z * v.z))) *
        (v.x * (Real.sin (Real.sqrt (v.x * v.x + v.y * v.y + v.z * v.z) / 2) /
          Real.sqrt (v.x * v.x + v.y * v.y + v.z * v.z))) +
        (v.y * (Real.sin (Real.sqrt (v.x * v.x + v.y * v.y + v.z * v.z) / 2) /
          Real.sqrt (v.x * v.x + v.y * v.y + v.z * v.z))) *
        (v.y * (Real.sin (Real.sqrt (v.x * v.x + v.y * v.y + v.z * v.z) / 2) /
          Real.sqrt (v.x * v.x + v.y * v.y + v.z * v.z))) +
        (v.z * (Real.sin (Real.sqrt (v.x * v.x + v.y * v.y + v.z * v.z) / 2) /
          Real.sqrt (v.x * v.x + v.y * v.y + v.z * v.z))) *
        (v.z * (Real.sin (Real.sqrt (v.x * v.x + v.y * v.y + v.z * v.z) / 2) /
          Real.sqrt (v.x * v.x + v.y * v.y + v.z * v.z))) =
        Real.sin (Real.sqrt (v.x * v.x + v.y * v.y + v.z * v.z) / 2) ^ 2 := by
      have hexp : ∀ A B C s t : ℝ, A * (s / t) * (A * (s / t)) + B * (s / t) * (B * (s / t)) +
          C * (s / t) * (C * (s / t)) = (A * A + B * B + C * C) * (s / t) ^ 2 := by
        intro A B C s t
        ring
      have hSne : v.x * v.x + v.y * v.y + v.z * v.z ≠ 0 := by
        intro h0
        exact hθne (by rw [h0, Real.sqrt_zero])
      rw [hexp, div_pow, Real.sq_sqrt hSnn, mul_comm]
      exact div_mul_cancel₀ _ hSne
    have hnc2 : ¬ close_to
        ((v.x * (Real.sin (Real.sqrt (v.x * v.x + v.y * v.y + v.z * v.z) / 2) /
          Real.sqrt (v.x * v.x + v.y * v.y + v.z * v.z))) *
        (v.x * (Real.sin (Real.sqrt (v.x * v.x + v.y * v.y + v.z * v.z) / 2) /
          Real.sqrt (v.x * v.x + v.y * v.y + v.z * v.z))) +
        (v.y * (Real.sin (Real.sqrt (v.x * v.x + v.y * v.y + v.z * v.z) / 2) /
          Real.sqrt (v.x * v.x + v.y * v.y + v.z * v.z))) *
        (v.y * (Real.sin (Real.sqrt (v.x * v.x + v.y * v.y + v.z * v.z) / 2) /
          Real.sqrt (v.x * v.x + v.y * v.y + v.z * v.z))) +
        (v.z * (Real.sin (Real.sqrt (v.x * v.x + v.y * v.y + v.z * v.z) / 2) /
          Real.sqrt (v.x * v.x + v.y * v.y + v.z * v.z))) *
        (v.z * (Real.sin (Real.sqrt (v.x * v.x + v.y * v.y + v.z * v.z) / 2) /
          Real.sqrt (v.x * v.x + v.y * v.y + v.z * v.z)))) 0 := by
      rw [close_to, sub_zero, hs2, abs_of_nonneg (sq_nonneg _)]
      exact not_lt.mpr hreg2
    rw [rotation_vector_from_quaternion_of_not_close _ hnc2]
    dsimp only
    have hsq : Real.sqrt ((v.x * (Real.sin (Real.sqrt (v.x * v.x + v.y * v.y + v.z * v.z) / 2) /
          Real.sqrt (v.x * v.x + v.y * v.y + v.z * v.z))) *
        (v.x * (Real.sin (Real.sqrt (v.x * v.x + v.y * v.y + v.z * v.z) / 2) /
          Real.sqrt (v.x * v.x + v.y * v.y + v.z * v.z))) +
        (v.y * (Real.sin (Real.sqrt (v.x * v.x + v.y * v.y + v.z * v.z) / 2) /
          Real.sqrt (v.x * v.x + v.y * v.y + v.z * v.z))) *
        (v.y * (Real.sin (Real.sqrt (v.x * v.x + v.y * v.y + v.z * v.z) / 2) /
          Real.sqrt (v.x * v.x + v.y * v.y + v.z * v.z))) +
        (v.z * (Real.sin (Real.sqrt (v.x * v.x + v.y * v.y + v.z * v.z) / 2) /
          Real.sqrt (v.x * v.x + v.y * v.y + v.z * v.z))) *
        (v.z * (Real.sin (Real.sqrt (v.x * v.x + v.y * v.y + v.z * v.z) / 2) /
          Real.sqrt (v.x * v.x + v.y * v.y + v.z * v.z)))) =
        Real.sin (Real.sqrt (v.x * v.x + v.y * v.y + v.z * v.z) / 2) := by
      rw [hs2, Real.sqrt_sq hsin0]
    rw [hsq, atan2_sin_cos _ hhalf0 hhalfle]
    have hval : ∀ a : ℝ,
        a * (Real.sin (Real.sqrt (v.x * v.x + v.y * v.y + v.z * v.z) / 2) /
          Real.sqrt (v.x * v.x + v.y * v.y + v.z * v.z)) *
        (2 * (Real.sqrt (v.x * v.x + v.y * v.y + v.z * v.z) / 2) /
          Real.sin (Real.sqrt (v.x * v.x + v.y * v.y + v.z * v.z) / 2)) = a := by
      intro a
      field_simp
    refine ⟨?_, ?_, ?_⟩ <;> dsimp only
    · rw [hval v.x, sub_self, abs_zero]
      exact le_of_lt htol_pos
    · rw [hval v.y, sub_self, abs_zero]
      exact le_of_lt htol_pos
    · rw [hval v.z, sub_self, abs_zero]
      exact le_of_lt htol_pos

/-- Witness for C7: the null rotation vector satisfies the amended hypotheses
and round-trips within tolerance. -/
theorem C7_witness :
    |(rotation_vector_from_quaternion
        (quaternion_from_rotation_vector ⟨0, 0, 0⟩)).x - (0 : ℝ)| ≤ kTOLERANCE ∧
    |(rotation_vector_from_quaternion
        (quaternion_from_rotation_vector ⟨0, 0, 0⟩)).y - (0 : ℝ)| ≤ kTOLERANCE ∧
    |(rotation_vector_from_quaternion
        (quaternion_from_rotation_vector ⟨0, 0, 0⟩)).z - (0 : ℝ)| ≤ kTOLERANCE := by
  have h1 : Real.sqrt ((0 : ℝ) * 0 + 0 * 0 + 0 * 0) ≤ Real.pi := by
    rw [show ((0:ℝ) * 0 + 0 * 0 + 0 * 0) = 0 by ring, Real.sqrt_zero]
    exact Real.pi_pos.le
  have h2 : Real.sqrt ((0 : ℝ) * 0 + 0 * 0 + 0 * 0) < kTOLERANCE ∨
      kTOLERANCE ≤ Real.sin (Real.sqrt ((0 : ℝ) * 0 + 0 * 0 + 0 * 0) / 2) ^ 2 := by
    left
    rw [show ((0:ℝ) * 0 + 0 * 0 + 0 * 0) = 0 by ring, Real.sqrt_zero, kTOLERANCE]
    norm_num
  exact (C7_amended ⟨0, 0, 0⟩ h1 h2).1

end OpenTurbine
